import Mathlib

/-!
Verification of the preset-store subsystem of pcdsdevices/interface.py
(class Presets and class PresetPosition, plus the dynamic accessor
machinery).  Python dictionaries are modelled as association lists with
Python's update semantics (updating an existing key keeps its position,
new keys are appended); the filesystem, the advisory file lock and the
in-memory cache are threaded explicitly through a state record, and
Python exceptions are modelled by an error-carrying result type that
also returns the state at the moment the exception propagates.
-/

namespace Presets

/-- A category of presets (preset_type); stands for the storage file path
as well, since there is one file per (device, category). -/
abbrev Cat := String

/-- The Python values relevant to the update call: None, strings, and
real numbers (numbers.Real, modelled as rationals). -/
inductive PyVal where
  | pyNone
  | pyStr (s : String)
  | pyNum (v : Rat)
deriving DecidableEq

def PyVal.isStr : PyVal → Bool
  | .pyStr _ => true
  | _ => false

def PyVal.toRat : PyVal → Option Rat
  | .pyNum v => some v
  | _ => none

/-- The Python exceptions that arise in the preset subsystem. -/
inductive PyErr where
  | typeError
  | blockingError
  | fileNotFoundError
  | keyError
  | raisedError
deriving DecidableEq

/-- External lock contention on the storage file: free; held by another
process but released during the bounded wait; or held for the whole
acquisition attempt (past the timeout and the follow-up non-blocking
attempt). -/
inductive ExtLock where
  | free
  | heldUntilTimeout
  | heldForever
deriving DecidableEq

/-- One preset record as stored in the yaml document: keys value,
active, history. -/
structure Record where
  value : Rat
  active : Bool
  history : List (String × String)
deriving DecidableEq

/-- A document: mapping from preset name to record. -/
abbrev Doc := List (String × Record)

/-- A storage file: its yaml document (empty file loads as the empty
document) and its permission bits. -/
structure PFile where
  doc : Doc
  perm : Nat
deriving DecidableEq

/-- The object a dynamic method is installed on: the device or the
Presets object itself. -/
inductive Target where
  | device
  | store
deriving DecidableEq

/-- One entry of the self._methods registry together with the data the
installed closure captured (the preset_type and, for the per-preset
methods, the preset name). -/
structure MethodEntry where
  target : Target
  mname : String
  mcat : Option Cat
  mpname : Option String
deriving DecidableEq

/-- The state threaded through the subsystem: the storage files, the
held file descriptor self._fd (by category), whether the OS-level flock
is currently held, the cache self._cache, the method registry
self._methods and the self.positions namespace. -/
structure PState where
  fs : List (Cat × PFile)
  fd : Option Cat
  osLocked : Bool
  cache : List (Cat × Doc)
  methods : List MethodEntry
  positions : List String
deriving DecidableEq

/-- Result of running a piece of the Python code: either a value or a
propagating exception, in both cases together with the state at that
point. -/
inductive PyResult (α : Type) where
  | ok (a : α) (st : PState)
  | err (e : PyErr) (st : PState)
deriving DecidableEq

/-- Decidable equality of run results carried in Except, so that
concrete evaluations of Presets.state can be checked by decide. -/
instance {ε α : Type} [DecidableEq ε] [DecidableEq α] : DecidableEq (Except ε α) :=
  fun a b =>
    match a, b with
    | .ok x, .ok y =>
        if h : x = y then .isTrue (by rw [h]) else .isFalse (by simp [h])
    | .error e, .error e' =>
        if h : e = e' then .isTrue (by rw [h]) else .isFalse (by simp [h])
    | .ok _, .error _ => .isFalse (by simp)
    | .error _, .ok _ => .isFalse (by simp)

/-- Python dict lookup. -/
def alookup {α : Type} : List (String × α) → String → Option α
  | [], _ => none
  | (k, v) :: t, key => if k = key then some v else alookup t key

/-- Python dict assignment: updating an existing key keeps its position,
a new key is appended at the end. -/
def ainsert {α : Type} : List (String × α) → String → α → List (String × α)
  | [], key, v => [(key, v)]
  | (k, w) :: t, key, v =>
      if k = key then (k, v) :: t else (k, w) :: ainsert t key v

/-- The Python format string {:10.4f}: four decimal digits, right
aligned to a minimum width of ten characters.  (Rounding of the scaled
value is floor(x + 1/2), round-half-up on the exact rational; the claims
never touch half-way cases, where the CPython float formatter would
round the nearest binary double to even.) -/
def fmtRat4 (v : Rat) : String :=
  let s := v * 10000
  let n : Int := Int.fdiv (2 * s.num + (s.den : Int)) (2 * (s.den : Int))
  let sign := if n < 0 then "-" else ""
  let m := n.natAbs
  let fstr := toString (m % 10000)
  let fpad := String.mk (List.replicate (4 - fstr.length) '0') ++ fstr
  let core := sign ++ toString (m / 10000) ++ "." ++ fpad
  String.mk (List.replicate (10 - core.length) ' ') ++ core

/-- The history entry text written by _update:
'{:10.4f}{}'.format(value, comment), where comment is ' ' + comment when
truthy (a nonempty string) and '' otherwise. -/
def fmtEntry (v : Rat) (comment : Option String) : String :=
  fmtRat4 v ++ (match comment with
    | some c => if c = "" then "" else " " ++ c
    | none => "")

/-- Insert a key-value pair into a key-sorted association list, keeping
it sorted by key (code-point order, the order Python uses to compare
strings). -/
def ainsertSorted {α : Type} (k : String) (v : α) :
    List (String × α) → List (String × α)
  | [] => [(k, v)]
  | (k', w) :: t =>
      if k < k' then (k, v) :: (k', w) :: t else (k', w) :: ainsertSorted k v t

/-- Sort an association list by key: the order in which yaml.dump
serializes a Python mapping (PyYAML sorts mapping keys). -/
def asort {α : Type} : List (String × α) → List (String × α)
  | [] => []
  | (k, v) :: t => ainsertSorted k v (asort t)

/-- yaml.dump applied to one record: the nested history mapping is
written with its timestamp keys sorted alphabetically.  (The record's
own fixed field names value/active/history are also sorted in the file;
the Record structure abstracts over that field order.) -/
def dumpRecord (r : Record) : Record :=
  ⟨r.value, r.active, asort r.history⟩

/-- yaml.dump applied to one document: preset names sorted
alphabetically, every nested history mapping sorted as well.  A later
yaml.full_load returns the mappings in this file order. -/
def dumpDoc (d : Doc) : Doc :=
  (asort d).map (fun kv => (kv.1, dumpRecord kv.2))

/-- Presets._file_open_rlock.  If self._fd is already set, the existing
descriptor is yielded and nothing is acquired or released around the
body.  Otherwise the file is opened (FileNotFoundError when the path
does not exist), the code blocks on flock(LOCK_EX) under a SIGALRM timer
and, after an interrupting timeout, retries with
flock(LOCK_EX | LOCK_NB), which raises BlockingIOError when the lock is
still held elsewhere.  On success self._fd is set and the body runs; on
normal completion of the body the lock is released, the file closed and
self._fd reset to None.  When the body raises, the exception propagates
at the yield: the file is closed by the surrounding with-block (which
drops the OS lock) but self._fd is left pointing at the closed file. -/
def _file_open_rlock {α : Type} (ext : ExtLock) (cat : Cat) (st : PState)
    (body : PState → PyResult α) : PyResult α :=
  match st.fd with
  | some _ => body st
  | none =>
      match alookup st.fs cat with
      | none => .err .fileNotFoundError st
      | some _ =>
          if ext = .heldForever then .err .blockingError st
          else
            match body { st with fd := some cat, osLocked := true } with
            | .ok a st' => .ok a { st' with fd := none, osLocked := false }
            | .err e st' => .err e { st' with osLocked := false }

/-- Presets._read: inside the lock scope, seek to 0 and load the yaml
document; an empty file loads as None, turned into the empty mapping by
the `or` fallback. -/
def _read (ext : ExtLock) (cat : Cat) (st : PState) : PyResult Doc :=
  _file_open_rlock ext cat st (fun s =>
    .ok (((alookup s.fs cat).map PFile.doc).getD []) s)

/-- Presets._write: inside the lock scope, seek to 0, dump the whole
document via yaml.dump and truncate: a full-document replace in which
every mapping is written with alphabetically sorted keys (dumpDoc).  The
file is present whenever a descriptor is held; the fallback permission
branch is unreachable in the modelled flows. -/
def _write (ext : ExtLock) (cat : Cat) (data : Doc) (st : PState) : PyResult Unit :=
  _file_open_rlock ext cat st (fun s =>
    match alookup s.fs cat with
    | some f => .ok () { s with fs := ainsert s.fs cat ⟨dumpDoc data, f.perm⟩ }
    | none => .ok () { s with fs := ainsert s.fs cat ⟨dumpDoc data, 0o666⟩ })

/-- The in-lock portion of Presets._update on the loaded document:
resolve a missing value from the existing record when a comment was
given (KeyError when the record is absent); when a value is available,
upsert the record, append the timestamped history entry, and set the
active flag; with neither value nor comment, setting the active flag of
a missing record raises KeyError. -/
def updateDoc (data : Doc) (nm : String) (v? : Option Rat)
    (comment : Option String) (active : Bool) (ts : String) : Except PyErr Doc :=
  let resolved : Except PyErr (Option Rat) :=
    if v?.isNone && comment.isSome then
      match alookup data nm with
      | some r => .ok (some r.value)
      | none => .error .keyError
    else .ok v?
  match resolved with
  | .error e => .error e
  | .ok none =>
      match alookup data nm with
      | some r => .ok (ainsert data nm { r with active := active })
      | none => .error .keyError
  | .ok (some v) =>
      let hist := match alookup data nm with
        | some r => r.history
        | none => []
      .ok (ainsert data nm ⟨v, active, ainsert hist ts (fmtEntry v comment)⟩)

/-- Presets._update.  Validates the name and value types before any
I/O; then touches the storage file (permissions 0o666) when it does not
exist, acquires the lock scope, reads the document, applies the update
and writes the document back.  BlockingIOError from the lock
acquisition is caught and only logged; every other exception
propagates. -/
def _update (ext : ExtLock) (ts : String) (cat : Cat) (name value : PyVal)
    (comment : Option String) (active : Bool) (st : PState) : PyResult Unit :=
  match name with
  | .pyStr nm =>
      match value with
      | .pyStr _ => .err .typeError st
      | _ =>
          let st1 := match alookup st.fs cat with
            | some _ => st
            | none => { st with fs := ainsert st.fs cat ⟨[], 0o666⟩ }
          let r := _file_open_rlock ext cat st1 (fun s =>
            match _read ext cat s with
            | .err e s' => .err e s'
            | .ok data s' =>
                match updateDoc data nm value.toRat comment active ts with
                | .error e => .err e s'
                | .ok data' => _write ext cat data' s')
          match r with
          | .err .blockingError s => .ok () s
          | r' => r'
  | _ => .err .typeError st

/-- Presets._register_method: append to self._methods and install the
bound method (recorded here together with its captured closure data). -/
def _register_method (s : PState) (t : Target) (mn : String)
    (mc : Option Cat) (mp : Option String) : PState :=
  { s with methods := s.methods ++ [⟨t, mn, mc, mp⟩] }

/-- Presets._create_methods: install add_<cat> and add_here_<cat> on the
store for every configured category, then, for every cached record with
active true, install mv_<name>, umv_<name> and wm_<name> on the device
and add the name to self.positions. -/
def _create_methods (paths : List Cat) (st : PState) : PState :=
  let st1 := paths.foldl (fun s cat =>
    _register_method
      (_register_method s .store ("add_" ++ cat) (some cat) none)
      .store ("add_here_" ++ cat) (some cat) none) st
  st1.cache.foldl (fun s cd =>
    cd.2.foldl (fun s' ni =>
      if ni.2.active then
        let s2 := _register_method s' .device ("mv_" ++ ni.1) (some cd.1) (some ni.1)
        let s3 := _register_method s2 .device ("umv_" ++ ni.1) (some cd.1) (some ni.1)
        let s4 := _register_method s3 .device ("wm_" ++ ni.1) (some cd.1) (some ni.1)
        { s4 with positions :=
            if s4.positions.contains ni.1 then s4.positions
            else s4.positions ++ [ni.1] }
      else s') s) st1

/-- Presets.sync: remove all installed methods and positions, clear the
cache, reload every configured category whose file exists (catching and
logging BlockingIOError from the read), then recreate the methods. -/
def sync (ext : ExtLock) (paths : List Cat) (st : PState) : PState :=
  let st0 := { st with methods := [], positions := [], cache := [] }
  let st1 := paths.foldl (fun s cat =>
    match alookup s.fs cat with
    | none => s
    | some _ =>
        match _read ext cat s with
        | .ok data s' => { s' with cache := ainsert s'.cache cat data }
        | .err _ s' => s') st0
  _create_methods paths st1

/-- The loop of Presets.state over self._methods: for every method whose
name starts with wm_, take the state name from the method name
(replace('wm_', '', 1), which for these names drops the prefix), call
the closure (cache[preset_type][name].value - position, KeyError when
the cache entry is gone) and keep the name when diff < closest. -/
def stateLoop (st : PState) (pos : Rat) :
    List MethodEntry → String × Rat → Except PyErr (String × Rat)
  | [], acc => .ok acc
  | m :: rest, acc =>
      if m.mname.startsWith "wm_" then
        match m.mcat, m.mpname with
        | some c, some nm =>
            match alookup st.cache c with
            | some d =>
                match alookup d nm with
                | some r =>
                    let diff := r.value - pos
                    stateLoop st pos rest
                      (if diff < acc.2 then (m.mname.drop 3, diff) else acc)
                | none => .error .keyError
            | none => .error .keyError
        | _, _ => .error .keyError
      else stateLoop st pos rest acc

/-- Presets.state: start from ('Unknown', 0.5) and fold stateLoop over
the installed methods; return the final state name. -/
def state (st : PState) (pos : Rat) : Except PyErr String :=
  (stateLoop st pos st.methods ("Unknown", (1 : Rat) / 2)).map Prod.fst

end Presets

namespace PresetPosition

open Presets

/-- PresetPosition.info: self._presets._cache[preset_type][name]
(Option models the KeyError on a missing entry). -/
def info (st : PState) (cat : Cat) (nm : String) : Option Record :=
  (alookup st.cache cat).bind (fun d => alookup d nm)

/-- PresetPosition.pos: the value field of the cached record. -/
def pos (st : PState) (cat : Cat) (nm : String) : Option Rat :=
  (info st cat nm).map Record.value

/-- PresetPosition.history: the history field of the cached record. -/
def history (st : PState) (cat : Cat) (nm : String) : Option (List (String × String)) :=
  (info st cat nm).map Record.history

end PresetPosition

namespace Presets

/-- Extract the state a run ended in, whether it returned or raised. -/
def runState {α : Type} : PyResult α → PState
  | .ok _ s => s
  | .err _ s => s

/-- A store with no files, nothing cached and nothing installed. -/
def emptySt : PState := ⟨[], none, false, [], [], []⟩

/-- The demonstration store of the design document: one category c whose
file holds two active presets, a at 10.0 and b at 10.3. -/
def demoSt : PState :=
  ⟨[("c", ⟨[("a", ⟨10, true, []⟩), ("b", ⟨(103 : Rat) / 10, true, []⟩)], 0o666⟩)],
   none, false, [], [], []⟩

/-- The file of demoSt, for instantiating lock lemmas. -/
def demoFile : PFile :=
  ⟨[("a", ⟨10, true, []⟩), ("b", ⟨(103 : Rat) / 10, true, []⟩)], 0o666⟩

/-- demoSt with the lock scope already entered for category c. -/
def heldSt : PState := { demoSt with fd := some "c" }

/-- A store whose category c has an existing but empty file. -/
def emptyFileSt : PState := ⟨[("c", ⟨[], 0o666⟩)], none, false, [], [], []⟩

/-- A fixed one-second-resolution timestamp, as produced by
time.strftime('%d %b %Y %H:%M:%S'). -/
def ts0 : String := "01 Jan 2020 00:00:00"

end Presets

namespace Presets

theorem alookup_ainsert_self {α : Type} (l : List (String × α)) (k : String) (v : α) :
    alookup (ainsert l k v) k = some v := by
  induction l with
  | nil => simp [ainsert, alookup]
  | cons h t ih =>
      obtain ⟨k', w⟩ := h
      by_cases hk : k' = k
      · simp [ainsert, alookup, hk]
      · simp [ainsert, alookup, hk, ih]

theorem alookup_ainsert_ne {α : Type} (l : List (String × α)) (k k' : String) (v : α)
    (h : k' ≠ k) : alookup (ainsert l k v) k' = alookup l k' := by
  have h' : ¬ k = k' := fun hh => h hh.symm
  induction l with
  | nil => simp [ainsert, alookup, h']
  | cons hd t ih =>
      obtain ⟨k₀, w⟩ := hd
      by_cases hk : k₀ = k
      · subst hk
        simp [ainsert, alookup, h']
      · simp [ainsert, alookup, hk, ih]

theorem ainsert_ainsert_self {α : Type} (l : List (String × α)) (k : String) (v w : α) :
    ainsert (ainsert l k v) k w = ainsert l k w := by
  induction l with
  | nil => simp [ainsert]
  | cons hd t ih =>
      obtain ⟨k₀, u⟩ := hd
      by_cases hk : k₀ = k
      · simp [ainsert, hk]
      · simp [ainsert, hk, ih]

theorem foldl_cache {β : Type} (f : PState → β → PState)
    (hf : ∀ s x, (f s x).cache = s.cache) (l : List β) :
    ∀ s : PState, (List.foldl f s l).cache = s.cache := by
  induction l with
  | nil => intro s; rfl
  | cons x t ih => intro s; rw [List.foldl_cons, ih, hf]

/-- Creating the dynamic methods never touches the cache. -/
theorem create_methods_cache (paths : List Cat) (st : PState) :
    (_create_methods paths st).cache = st.cache := by
  unfold _create_methods
  dsimp only
  rw [foldl_cache, foldl_cache]
  · intro s cat; rfl
  · intro s cd
    rw [foldl_cache]
    intro s' ni
    dsimp only
    split <;> rfl

/-- Inserting into a sorted position is a permutation of consing: yaml's
key sort loses no entry. -/
theorem ainsertSorted_perm {α : Type} (k : String) (v : α) (l : List (String × α)) :
    List.Perm (ainsertSorted k v l) ((k, v) :: l) := by
  induction l with
  | nil => exact List.Perm.refl _
  | cons hd t ih =>
      obtain ⟨k', w⟩ := hd
      by_cases hk : k < k'
      · simp only [ainsertSorted, if_pos hk]
        exact List.Perm.refl _
      · simp only [ainsertSorted, if_neg hk]
        exact (ih.cons _).trans (List.Perm.swap _ _ _)

/-- Sorting a mapping by key is a permutation of its entries: the dump
reorders but never drops or duplicates. -/
theorem asort_perm {α : Type} (l : List (String × α)) : List.Perm (asort l) l := by
  induction l with
  | nil => exact List.Perm.refl _
  | cons hd t ih =>
      obtain ⟨k, v⟩ := hd
      simp only [asort]
      exact (ainsertSorted_perm k v (asort t)).trans (ih.cons _)

/-- Running _update with an explicit value on a store whose file exists:
the record is upserted, the history entry appended, the active flag set,
and the whole document rewritten with sorted keys (dumpDoc). -/
theorem update_value_ok (ts cat nm : String) (v : Rat) (comment : Option String)
    (active : Bool) (st : PState) (d : Doc) (p : Nat)
    (hfd : st.fd = none) (hos : st.osLocked = false)
    (hfs : alookup st.fs cat = some ⟨d, p⟩) :
    _update .free ts cat (.pyStr nm) (.pyNum v) comment active st =
      .ok () { st with fs := ainsert st.fs cat ⟨dumpDoc (ainsert d nm ⟨v, active,
        ainsert (match alookup d nm with | some r => r.history | none => [])
          ts (fmtEntry v comment)⟩), p⟩ } := by
  obtain ⟨fs, fd, os, cache, methods, positions⟩ := st
  dsimp only at hfd hos hfs
  subst hfd; subst hos
  simp only [_update, _read, _write, _file_open_rlock, updateDoc, PyVal.toRat, hfs]
  cases comment <;> simp [hfs]

/-- Running _update with no value and no comment on an existing record:
only the active flag is rewritten before the sorted dump; value and
history entries are untouched. -/
theorem update_active_only_ok (ts cat nm : String) (active : Bool) (st : PState)
    (d : Doc) (p : Nat) (r : Record)
    (hfd : st.fd = none) (hos : st.osLocked = false)
    (hfs : alookup st.fs cat = some ⟨d, p⟩) (hnm : alookup d nm = some r) :
    _update .free ts cat (.pyStr nm) .pyNone none active st =
      .ok () { st with fs := ainsert st.fs cat ⟨dumpDoc (ainsert d nm { r with
        active := active }), p⟩ } := by
  obtain ⟨fs, fd, os, cache, methods, positions⟩ := st
  dsimp only at hfd hos hfs
  subst hfd; subst hos
  simp only [_update, _read, _write, _file_open_rlock, updateDoc, PyVal.toRat, hfs, hnm]
  simp [hfs, hnm]

/-- update_value_ok specialized to a name absent from the document: the
record is created with a one-entry history. -/
theorem update_value_fresh (ts cat nm : String) (v : Rat) (comment : Option String)
    (active : Bool) (st : PState) (d : Doc) (p : Nat)
    (hfd : st.fd = none) (hos : st.osLocked = false)
    (hfs : alookup st.fs cat = some ⟨d, p⟩) (hnm : alookup d nm = none) :
    _update .free ts cat (.pyStr nm) (.pyNum v) comment active st =
      .ok () { st with fs := ainsert st.fs cat ⟨dumpDoc (ainsert d nm ⟨v, active,
        [(ts, fmtEntry v comment)]⟩), p⟩ } := by
  have h := update_value_ok ts cat nm v comment active st d p hfd hos hfs
  rw [hnm] at h
  simpa [ainsert] using h

/-- update_value_ok specialized to an existing record: the value is
overwritten and the history entry appended to the existing history. -/
theorem update_value_existing (ts cat nm : String) (v : Rat) (comment : Option String)
    (active : Bool) (st : PState) (d : Doc) (p : Nat) (r : Record)
    (hfd : st.fd = none) (hos : st.osLocked = false)
    (hfs : alookup st.fs cat = some ⟨d, p⟩) (hnm : alookup d nm = some r) :
    _update .free ts cat (.pyStr nm) (.pyNum v) comment active st =
      .ok () { st with fs := ainsert st.fs cat ⟨dumpDoc (ainsert d nm ⟨v, active,
        ainsert r.history ts (fmtEntry v comment)⟩), p⟩ } := by
  have h := update_value_ok ts cat nm v comment active st d p hfd hos hfs
  rw [hnm] at h
  simpa using h

/-- Synchronizing a store with a single configured category whose file
exists loads that document into the cache and recreates the methods. -/
theorem sync_single (cat : Cat) (st : PState) (d : Doc) (p : Nat)
    (hfd : st.fd = none) (hos : st.osLocked = false)
    (hfs : alookup st.fs cat = some ⟨d, p⟩) :
    sync .free [cat] st =
      _create_methods [cat]
        { st with methods := [], positions := [], cache := [(cat, d)] } := by
  obtain ⟨fs, fd, os, cache, methods, positions⟩ := st
  dsimp only at hfd hos hfs
  subst hfd; subst hos
  simp [sync, _read, _file_open_rlock, hfs, ainsert]

/-- The handle's current value after syncing a single-category store
whose file holds exactly one record. -/
theorem sync_pos_single (cat nm : String) (st : PState) (r : Record) (p : Nat)
    (hfd : st.fd = none) (hos : st.osLocked = false)
    (hfs : alookup st.fs cat = some ⟨[(nm, r)], p⟩) :
    PresetPosition.pos (sync .free [cat] st) cat nm = some r.value := by
  rw [sync_single cat st [(nm, r)] p hfd hos hfs]
  simp [PresetPosition.pos, PresetPosition.info, create_methods_cache, alookup]

/-- The handle's history after syncing a single-category store whose
file holds exactly one record. -/
theorem sync_history_single (cat nm : String) (st : PState) (r : Record) (p : Nat)
    (hfd : st.fd = none) (hos : st.osLocked = false)
    (hfs : alookup st.fs cat = some ⟨[(nm, r)], p⟩) :
    PresetPosition.history (sync .free [cat] st) cat nm = some r.history := by
  rw [sync_single cat st [(nm, r)] p hfd hos hfs]
  simp [PresetPosition.history, PresetPosition.info, create_methods_cache, alookup]

/-- C1: Presets.state compares the signed offset (preset value minus
position) against the running minimum, with no absolute value.  For the
presets a at 10.0 and b at 10.3 it therefore returns a both at position
10.2 (the claim expects b, whose absolute offset 0.1 is smaller than a's
0.2) and at position 20.0 (the claim, and the method's own docstring,
expect the Unknown sentinel since no preset is within 0.5): the most
negative offset always wins. -/
theorem state_uses_signed_offset :
    Presets.state (sync .free ["c"] demoSt) 20 = .ok "a" ∧
    Presets.state (sync .free ["c"] demoSt) ((102 : Rat) / 10) = .ok "a" := by
  constructor <;> with_unfolding_all decide

/-- C2 counterexample: when the file lock is still held elsewhere after
the bounded wait, _file_open_rlock raises BlockingIOError to the caller
instead of falling back to an unbounded blocking acquisition. -/
theorem lock_contention_raises_not_blocks :
    (_file_open_rlock .heldForever "c" demoSt (fun s => PyResult.ok () s) : PyResult Unit) =
      .err .blockingError demoSt := rfl

/-- C2 (amended): the acquirer blocks for at most the timeout; a lock
released during the bounded wait is acquired exactly as in the
uncontended case, and a lock still held when the timeout elapses makes
the follow-up non-blocking attempt raise BlockingIOError, which is
visible to the caller (and caught and logged by _update and sync). -/
theorem lock_bounded_wait_then_error {α : Type} (cat : Cat) (st : PState) (f : PFile)
    (body : PState → PyResult α)
    (hfd : st.fd = none) (hfs : alookup st.fs cat = some f) :
    _file_open_rlock .heldForever cat st body = .err .blockingError st ∧
    _file_open_rlock .heldUntilTimeout cat st body =
      _file_open_rlock .free cat st body := by
  simp [_file_open_rlock, hfd, hfs]

/-- Witness for C2 at a concrete store and body. -/
theorem lock_bounded_wait_then_error_witness :
    _file_open_rlock .heldForever "c" demoSt (fun s => PyResult.ok () s) =
      .err .blockingError demoSt ∧
    _file_open_rlock .heldUntilTimeout "c" demoSt (fun s => PyResult.ok () s) =
      _file_open_rlock .free "c" demoSt (fun s => PyResult.ok () s) :=
  lock_bounded_wait_then_error "c" demoSt demoFile _ rfl rfl

/-- C3 counterexample: the empty string is not a non-empty string, yet
_update accepts it as a name with no validation error: the call succeeds
and writes a record keyed by the empty string to the file it creates. -/
theorem update_empty_name_accepted :
    _update .free "t0" "c" (.pyStr "") (.pyNum 1) none true emptySt =
      .ok () ⟨[("c", ⟨[("", ⟨1, true, [("t0", "    1.0000")]⟩)], 0o666⟩)],
              none, false, [], [], []⟩ := by
  with_unfolding_all decide

/-- C3 (amended): _update validates only the types, before any I/O: a
name that is not a string (any string, the empty string included, is
accepted) raises TypeError with the state unchanged, and a value that is
given but is not a real number likewise raises TypeError with the state
unchanged. -/
theorem update_type_validation (ext : ExtLock) (ts : String) (cat : Cat)
    (name value : PyVal) (comment : Option String) (active : Bool) (st : PState) :
    (name.isStr = false →
      _update ext ts cat name value comment active st = .err .typeError st) ∧
    (value.isStr = true →
      _update ext ts cat name value comment active st = .err .typeError st) := by
  constructor
  · intro h
    cases name with
    | pyStr s => simp [PyVal.isStr] at h
    | pyNone => rfl
    | pyNum v => rfl
  · intro h
    cases value with
    | pyStr s => cases name <;> rfl
    | pyNone => simp [PyVal.isStr] at h
    | pyNum v => simp [PyVal.isStr] at h

/-- Witness for C3: a numeric name and a string value are both rejected
with no state change. -/
theorem update_type_validation_witness :
    (_update .free "t0" "c" (.pyNum 123) (.pyNum 1) none true emptySt =
      .err .typeError emptySt) ∧
    (_update .free "t0" "c" (.pyStr "n") (.pyStr "x") none true emptySt =
      .err .typeError emptySt) :=
  ⟨(update_type_validation .free "t0" "c" (.pyNum 123) (.pyNum 1) none true emptySt).1 rfl,
   (update_type_validation .free "t0" "c" (.pyStr "n") (.pyStr "x") none true emptySt).2 rfl⟩

/-- C4: when self._fd is already set, a second entry into
_file_open_rlock is a no-op that yields the existing descriptor: the
body runs on the unchanged state, no acquisition is attempted (even
under full external contention no error can arise), and nothing is
released, closed or reset when the inner scope exits. -/
theorem rlock_reentrant {α : Type} (ext : ExtLock) (cat c : Cat) (st : PState)
    (body : PState → PyResult α) (h : st.fd = some c) :
    _file_open_rlock ext cat st body = body st := by
  simp [_file_open_rlock, h]

/-- Witness for C4: reentrant acquisition under full contention still
succeeds at once and preserves the held descriptor. -/
theorem rlock_reentrant_witness :
    _file_open_rlock .heldForever "c" heldSt (fun s => PyResult.ok () s) =
      PyResult.ok () heldSt :=
  rlock_reentrant .heldForever "c" "c" heldSt (fun s => PyResult.ok () s) rfl

/-- C5: the lock scope resets self._fd to None on normal completion of
the body, but the generator has no try/finally around its yield: when
the body raises, the explicit unlock and the reset of self._fd are both
skipped.  The OS lock is dropped only because the surrounding with-block
closes the file, and self._fd is left pointing at the closed file, so
the held-descriptor state is not reset on the exception exit path. -/
theorem lock_scope_fd_not_reset_on_raise :
    (_file_open_rlock .free "c" demoSt (fun s => PyResult.ok () s) =
      .ok () { demoSt with fd := none, osLocked := false }) ∧
    ((_file_open_rlock .free "c" demoSt (fun s => PyResult.err .raisedError s) : PyResult Unit) =
      .err .raisedError { demoSt with fd := some "c", osLocked := false }) := by
  constructor <;> rfl

/-- C6 counterexample: reading a category whose storage file does not
exist raises FileNotFoundError from open(path, 'r+') instead of
returning an empty document. -/
theorem read_missing_file_raises :
    _read .free "c" emptySt = .err .fileNotFoundError emptySt := rfl

/-- C6 (amended): _read returns an empty document for a category whose
file exists but is empty (yaml loads None, turned into the empty mapping
by the or-fallback), while a category whose file does not exist makes
the open raise FileNotFoundError; callers avoid the latter, sync by
skipping absent files and _update by touching the file first. -/
theorem read_empty_file_vs_missing (cat : Cat) (st : PState) (p : Nat)
    (hfd : st.fd = none) (hos : st.osLocked = false) :
    (alookup st.fs cat = some ⟨[], p⟩ → _read .free cat st = .ok [] st) ∧
    (alookup st.fs cat = none → _read .free cat st = .err .fileNotFoundError st) := by
  obtain ⟨fs, fd, os, cache, methods, positions⟩ := st
  dsimp only at hfd hos
  subst hfd; subst hos
  constructor
  · intro h
    simp [_read, _file_open_rlock, h]
  · intro h
    simp [_read, _file_open_rlock, h]

/-- Witness for C6: reading the existing empty file of category c. -/
theorem read_empty_file_vs_missing_witness :
    _read .free "c" emptyFileSt = .ok [] emptyFileSt :=
  (read_empty_file_vs_missing "c" emptyFileSt 0o666 rfl rfl).1 rfl

/-- C7: an _update that passes validation and finds the document lock
held for the whole acquisition attempt is abandoned silently: the
BlockingIOError is caught and only logged, the caller receives a normal
return, and the state, the cache and the on-disk document included, is
exactly the prior state. -/
theorem update_contention_abandoned (ts cat nm : String) (value : PyVal)
    (comment : Option String) (active : Bool) (st : PState) (f : PFile)
    (hfd : st.fd = none) (hfs : alookup st.fs cat = some f)
    (hv : value.isStr = false) :
    _update .heldForever ts cat (.pyStr nm) value comment active st = .ok () st := by
  cases value with
  | pyStr s => simp [PyVal.isStr] at hv
  | pyNone => simp [_update, hfs, _file_open_rlock, hfd]
  | pyNum v => simp [_update, hfs, _file_open_rlock, hfd]

/-- Witness for C7: a contended update of preset n returns normally and
leaves the demonstration store untouched. -/
theorem update_contention_abandoned_witness :
    _update .heldForever "t0" "c" (.pyStr "n") (.pyNum 5) none true demoSt =
      .ok () demoSt :=
  update_contention_abandoned "t0" "c" "n" (.pyNum 5) none true demoSt demoFile
    rfl rfl rfl

/-- C8 counterexample: the history mapping is keyed by a timestamp with
one-second resolution, so two sequential updates that fall in the same
second produce a single history entry whose text is the second value:
the earlier entry is overwritten, not preserved. -/
theorem history_same_second_overwrites :
    PresetPosition.history
      (sync .free ["c"]
        (runState (_update .free ts0 "c" (.pyStr "n") (.pyNum 2) none true
          (runState (_update .free ts0 "c" (.pyStr "n") (.pyNum 1) none true emptySt)))))
      "c" "n" = some [(ts0, "    2.0000")] := by
  with_unfolding_all decide

/-- C8 (amended): starting from an empty document, updating a fresh
name with a value and syncing yields a handle whose current value is the
written value and whose history has exactly one entry; a second update
with a value at a distinct formatted timestamp yields a history with
both entries, the earlier entry's text unmodified, stored and reloaded
in alphabetical timestamp-key order (yaml.dump sorts mapping keys),
which coincides with call order exactly when the formatted timestamps
are alphabetically increasing.  (Two updates within the same second
share the timestamp key and the second overwrites the first's entry.) -/
theorem round_trip_and_history_append (st : PState) (cat nm ts1 ts2 : String)
    (p : Nat) (v1 v2 : Rat)
    (hfd : st.fd = none) (hos : st.osLocked = false)
    (hfs : alookup st.fs cat = some ⟨[], p⟩)
    (hts : ts1 ≠ ts2) :
    ∃ st1 st2 : PState,
      _update .free ts1 cat (.pyStr nm) (.pyNum v1) none true st = .ok () st1 ∧
      PresetPosition.pos (sync .free [cat] st1) cat nm = some v1 ∧
      PresetPosition.history (sync .free [cat] st1) cat nm =
        some [(ts1, fmtEntry v1 none)] ∧
      _update .free ts2 cat (.pyStr nm) (.pyNum v2) none true st1 = .ok () st2 ∧
      PresetPosition.history (sync .free [cat] st2) cat nm =
        some (if ts1 < ts2
          then [(ts1, fmtEntry v1 none), (ts2, fmtEntry v2 none)]
          else [(ts2, fmtEntry v2 none), (ts1, fmtEntry v1 none)]) := by
  have h1 := update_value_fresh ts1 cat nm v1 none true st [] p hfd hos hfs rfl
  simp only [ainsert, dumpDoc, dumpRecord, asort, ainsertSorted, List.map] at h1
  have hr1 : alookup [(nm, (⟨v1, true, [(ts1, fmtEntry v1 none)]⟩ : Record))] nm =
      some ⟨v1, true, [(ts1, fmtEntry v1 none)]⟩ := by simp [alookup]
  have h3 := update_value_existing ts2 cat nm v2 none true
    { st with fs := ainsert st.fs cat ⟨[(nm, ⟨v1, true, [(ts1, fmtEntry v1 none)]⟩)], p⟩ }
    [(nm, ⟨v1, true, [(ts1, fmtEntry v1 none)]⟩)] p
    ⟨v1, true, [(ts1, fmtEntry v1 none)]⟩ hfd hos (alookup_ainsert_self _ _ _) hr1
  simp only [ainsert, if_neg hts, dumpDoc, dumpRecord, asort, ainsertSorted, List.map,
    ainsert_ainsert_self] at h3
  refine ⟨_, _, h1, ?_, ?_, h3, ?_⟩
  · exact sync_pos_single cat nm _ ⟨v1, true, [(ts1, fmtEntry v1 none)]⟩ p
      hfd hos (alookup_ainsert_self _ _ _)
  · exact sync_history_single cat nm _ ⟨v1, true, [(ts1, fmtEntry v1 none)]⟩ p
      hfd hos (alookup_ainsert_self _ _ _)
  · exact sync_history_single cat nm _
      ⟨v2, true, if ts1 < ts2
        then [(ts1, fmtEntry v1 none), (ts2, fmtEntry v2 none)]
        else [(ts2, fmtEntry v2 none), (ts1, fmtEntry v1 none)]⟩ p
      hfd hos (alookup_ainsert_self _ _ _)

/-- Witness for C8: starting from the empty file of category c. -/
theorem round_trip_and_history_append_witness :
    ∃ st1 st2 : PState,
      _update .free "t1" "c" (.pyStr "n") (.pyNum 1) none true emptyFileSt = .ok () st1 ∧
      PresetPosition.pos (sync .free ["c"] st1) "c" "n" = some 1 ∧
      PresetPosition.history (sync .free ["c"] st1) "c" "n" =
        some [("t1", fmtEntry 1 none)] ∧
      _update .free "t2" "c" (.pyStr "n") (.pyNum 2) none true st1 = .ok () st2 ∧
      PresetPosition.history (sync .free ["c"] st2) "c" "n" =
        some (if ("t1" : String) < "t2"
          then [("t1", fmtEntry 1 none), ("t2", fmtEntry 2 none)]
          else [("t2", fmtEntry 2 none), ("t1", fmtEntry 1 none)]) :=
  round_trip_and_history_append emptyFileSt "c" "n" "t1" "t2" 0o666 1 2
    rfl rfl rfl (by decide)

/-- C9: for a document whose only record is inactive, sync installs only
the per-category add methods (nothing on the device, no positions entry)
while the record, history included, stays in the cache and on disk; a
subsequent update with active true and no value rewrites only the active
flag - the history keeps all its entries, written back by yaml.dump in
alphabetical timestamp-key order (a permutation of the original) - and
the next sync reinstalls mv_/umv_/wm_ accessors and the positions entry
with that history. -/
theorem inactive_hidden_but_retained (cat nm ts : String) (v : Rat)
    (h : List (String × String)) (p : Nat) :
    sync .free [cat] ⟨[(cat, ⟨[(nm, ⟨v, false, h⟩)], p⟩)], none, false, [], [], []⟩ =
      ⟨[(cat, ⟨[(nm, ⟨v, false, h⟩)], p⟩)], none, false,
       [(cat, [(nm, ⟨v, false, h⟩)])],
       [⟨.store, "add_" ++ cat, some cat, none⟩,
        ⟨.store, "add_here_" ++ cat, some cat, none⟩], []⟩ ∧
    PresetPosition.history
      ⟨[(cat, ⟨[(nm, ⟨v, false, h⟩)], p⟩)], none, false,
       [(cat, [(nm, ⟨v, false, h⟩)])],
       [⟨.store, "add_" ++ cat, some cat, none⟩,
        ⟨.store, "add_here_" ++ cat, some cat, none⟩], []⟩ cat nm = some h ∧
    _update .free ts cat (.pyStr nm) .pyNone none true
      ⟨[(cat, ⟨[(nm, ⟨v, false, h⟩)], p⟩)], none, false,
       [(cat, [(nm, ⟨v, false, h⟩)])],
       [⟨.store, "add_" ++ cat, some cat, none⟩,
        ⟨.store, "add_here_" ++ cat, some cat, none⟩], []⟩ =
      .ok () ⟨[(cat, ⟨[(nm, ⟨v, true, asort h⟩)], p⟩)], none, false,
       [(cat, [(nm, ⟨v, false, h⟩)])],
       [⟨.store, "add_" ++ cat, some cat, none⟩,
        ⟨.store, "add_here_" ++ cat, some cat, none⟩], []⟩ ∧
    sync .free [cat] ⟨[(cat, ⟨[(nm, ⟨v, true, asort h⟩)], p⟩)], none, false,
       [(cat, [(nm, ⟨v, false, h⟩)])],
       [⟨.store, "add_" ++ cat, some cat, none⟩,
        ⟨.store, "add_here_" ++ cat, some cat, none⟩], []⟩ =
      ⟨[(cat, ⟨[(nm, ⟨v, true, asort h⟩)], p⟩)], none, false,
       [(cat, [(nm, ⟨v, true, asort h⟩)])],
       [⟨.store, "add_" ++ cat, some cat, none⟩,
        ⟨.store, "add_here_" ++ cat, some cat, none⟩,
        ⟨.device, "mv_" ++ nm, some cat, some nm⟩,
        ⟨.device, "umv_" ++ nm, some cat, some nm⟩,
        ⟨.device, "wm_" ++ nm, some cat, some nm⟩], [nm]⟩ ∧
    PresetPosition.history
      ⟨[(cat, ⟨[(nm, ⟨v, true, asort h⟩)], p⟩)], none, false,
       [(cat, [(nm, ⟨v, true, asort h⟩)])],
       [⟨.store, "add_" ++ cat, some cat, none⟩,
        ⟨.store, "add_here_" ++ cat, some cat, none⟩,
        ⟨.device, "mv_" ++ nm, some cat, some nm⟩,
        ⟨.device, "umv_" ++ nm, some cat, some nm⟩,
        ⟨.device, "wm_" ++ nm, some cat, some nm⟩], [nm]⟩ cat nm =
      some (asort h) ∧
    List.Perm (asort h) h := by
  refine ⟨?_, ?_, ?_, ?_, ?_, asort_perm h⟩
  · simp [sync, _read, _file_open_rlock, _create_methods, _register_method,
      alookup, ainsert]
  · simp [PresetPosition.history, PresetPosition.info, alookup]
  · simp [_update, _read, _write, _file_open_rlock, updateDoc, PyVal.toRat,
      alookup, ainsert, dumpDoc, dumpRecord, asort, ainsertSorted]
  · simp [sync, _read, _file_open_rlock, _create_methods, _register_method,
      alookup, ainsert]
  · simp [PresetPosition.history, PresetPosition.info, alookup]

/-- C10: an update that passes type validation but supplies no value for
a name absent from the document (comment-only or active-flag-only)
raises KeyError and writes no record; when the category's file did not
exist it has nevertheless been created empty with permissions 0o666
before the failure (and, the scope having been exited by an exception,
self._fd is left set). -/
theorem update_no_value_missing_name (ts cat nm : String) (comment : Option String)
    (active : Bool) (st : PState) (d : Doc) (p : Nat) (hfd : st.fd = none) :
    (alookup st.fs cat = none →
      _update .free ts cat (.pyStr nm) .pyNone comment active st =
        .err .keyError { st with fs := ainsert st.fs cat ⟨[], 0o666⟩,
                                 fd := some cat, osLocked := false }) ∧
    (alookup st.fs cat = some ⟨d, p⟩ → alookup d nm = none →
      _update .free ts cat (.pyStr nm) .pyNone comment active st =
        .err .keyError { st with fd := some cat, osLocked := false }) := by
  obtain ⟨fs, fd, os, cache, methods, positions⟩ := st
  dsimp only at hfd
  subst hfd
  constructor
  · intro habs
    simp only [_update, _read, _file_open_rlock, updateDoc, PyVal.toRat, habs,
      alookup_ainsert_self]
    cases comment <;> simp [alookup, alookup_ainsert_self]
  · intro h1 h2
    simp only [_update, _read, _file_open_rlock, updateDoc, PyVal.toRat, h1, h2]
    cases comment <;> simp [h1, h2]

/-- Witness for C10: a comment-only update of a missing name on a store
with no file for category c errors with KeyError after creating the
empty file with permissions 0o666. -/
theorem update_no_value_missing_name_witness :
    _update .free "t0" "c" (.pyStr "n") .pyNone (some "x") true emptySt =
      .err .keyError { emptySt with fs := ainsert emptySt.fs "c" ⟨[], 0o666⟩,
                                    fd := some "c", osLocked := false } :=
  (update_no_value_missing_name "t0" "c" "n" (some "x") true emptySt [] 0o666 rfl).1 rfl

end Presets
